import Mathlib

/-!
Shallow embedding of the `mownstr` crate (`src/lib.rs`).

`MownStr` is a "maybe-owned string": physically a pointer (`addr`) plus a
`usize` field (`xlen`) whose low 63 bits store the byte length and whose top
bit stores the ownership flag.  We model machine addresses and `usize` values
as `Nat` (with explicit masking, mirroring the source's bit arithmetic at
width 64), string contents as lists of bytes (`List Nat`), raw memory as a
function from addresses to bytes, and the set of live heap allocations as a
list of `(address, length)` pairs, so that allocation, deallocation, cloning
and dropping can be stated and checked.
-/

namespace Mown

/-- Raw memory: the byte stored at each address. -/
abbrev Mem := Nat → Nat

/-- Width of `usize` (we model the common 64-bit platform). -/
def usizeBits : Nat := 64

/-- `usize::MAX`. -/
def usizeMax : Nat := 2 ^ usizeBits - 1

/-- `const LEN_MASK: usize = usize::MAX >> 1;` (lib.rs line 38). -/
def LEN_MASK : Nat := usizeMax >>> 1

/-- `const OWN_FLAG: usize = !LEN_MASK;` (lib.rs line 39); bitwise NOT at
width 64 is XOR with the all-ones word. -/
def OWN_FLAG : Nat := usizeMax ^^^ LEN_MASK

/-- The two physical fields of `MownStr` (lib.rs lines 24-28): the data
pointer `addr: NonNull<u8>` and the tagged length `xlen: usize`. -/
structure MownStr where
  addr : Nat
  xlen : Nat
deriving DecidableEq, Repr

/-- `MownStr::from_ref` (lib.rs lines 49-66): store the borrowed string's
address and untagged length.  The argument `&str` is modelled as an address
`a` together with the length `len` of the bytes found there; the
`debug_assert!(other.len() <= LEN_MASK)` is modelled by `from_ref_checked`. -/
def MownStr.from_ref (a len : Nat) : MownStr := ⟨a, len⟩

/-- `MownStr::is_borrowed` (lib.rs lines 69-71). -/
def MownStr.is_borrowed (m : MownStr) : Bool := m.xlen &&& OWN_FLAG == 0

/-- `MownStr::is_owned` (lib.rs lines 74-76). -/
def MownStr.is_owned (m : MownStr) : Bool := m.xlen &&& OWN_FLAG == OWN_FLAG

/-- `MownStr::borrowed` (lib.rs lines 79-85): same address, tag bit cleared. -/
def MownStr.borrowed (m : MownStr) : MownStr := ⟨m.addr, m.xlen &&& LEN_MASK⟩

/-- `MownStr::real_len` (lib.rs lines 88-90). -/
def MownStr.real_len (m : MownStr) : Nat := m.xlen &&& LEN_MASK

/-- The `len` consecutive bytes of memory starting at address `a`. -/
def readBytes (mem : Mem) (a len : Nat) : List Nat :=
  (List.range len).map fun i => mem (a + i)

/-- `Deref for MownStr` (lib.rs lines 189-200): read `real_len` bytes from
`addr`. -/
def MownStr.deref (mem : Mem) (m : MownStr) : List Nat :=
  readBytes mem m.addr m.real_len

/-- `MownStr::make_ref` (lib.rs lines 93-98): builds a `&str` from `addr`
and the raw `xlen` field (only called on borrowed handles, where
`xlen = real_len`). -/
def MownStr.make_ref (mem : Mem) (m : MownStr) : List Nat :=
  readBytes mem m.addr m.xlen

/-- Heap state: raw memory plus the list of live allocations, each recorded
as `(address, length)`. -/
structure Heap where
  mem : Mem
  live : List (Nat × Nat)

/-- Write the bytes `s` into memory starting at address `a`. -/
def writeBytes (mem : Mem) (a : Nat) (s : List Nat) : Mem :=
  fun x => if a ≤ x ∧ x < a + s.length then s.getD (x - a) 0 else mem x

/-- Upper bound used to pick a fresh address: one past the end of every live
allocation. -/
def Heap.freshAddr (h : Heap) : Nat :=
  (h.live.map fun p => p.1 + p.2).foldr max 0 + 1

/-- Allocate a fresh, exactly-sized heap buffer holding the bytes `s`
(models `Box<str>` creation); returns its address and the new heap. -/
def Heap.alloc (h : Heap) (s : List Nat) : Nat × Heap :=
  (h.freshAddr, ⟨writeBytes h.mem h.freshAddr s, (h.freshAddr, s.length) :: h.live⟩)

/-- Release the allocation `(a, len)` (models dropping a `Box<str>`):
removes the first matching entry from the live list. -/
def Heap.dealloc (h : Heap) (a len : Nat) : Heap :=
  ⟨h.mem, h.live.erase (a, len)⟩

/-- `impl From<Box<str>> for MownStr` (lib.rs lines 153-169): leak the box
at address `a` with length `len` and tag the length with `OWN_FLAG`
(`xlen = len | OWN_FLAG`).  The `debug_assert!(len <= LEN_MASK)` is
modelled by `fromBox_checked`. -/
def MownStr.fromBox (a len : Nat) : MownStr := ⟨a, len ||| OWN_FLAG⟩

/-- `impl From<String> for MownStr` (lib.rs lines 172-176):
`into_boxed_str` produces an exactly-sized heap buffer holding the string's
bytes, which is then handed to `From<Box<str>>`. -/
def mownFromString (h : Heap) (s : List Nat) : MownStr × Heap :=
  ((MownStr.fromBox (h.alloc s).1 s.length), (h.alloc s).2)

/-- `Cow<str>`: either a borrowed `&str` (address + length) or an owned
`String` (its bytes). -/
inductive Cow where
  | borrowed (a len : Nat)
  | owned (s : List Nat)
deriving DecidableEq, Repr

/-- The string content denoted by a `Cow` under memory `mem`. -/
def cowContent (mem : Mem) : Cow → List Nat
  | .borrowed a len => readBytes mem a len
  | .owned s => s

/-- `impl From<Cow<str>> for MownStr` (lib.rs lines 178-185): dispatch on
the variant. -/
def mownFromCow (h : Heap) : Cow → MownStr × Heap
  | .borrowed a len => (MownStr.from_ref a len, h)
  | .owned s => mownFromString h s

/-- `impl From<MownStr> for Cow<str>` (lib.rs lines 296-304): an owned
handle becomes `Cow::Owned` of its bytes (via `to::<String>`, which hands
over the buffer), a borrowed one becomes `Cow::Borrowed` of `make_ref`. -/
def mownIntoCow (mem : Mem) (m : MownStr) : Cow :=
  if m.is_owned then .owned (MownStr.deref mem m)
  else .borrowed m.addr m.xlen

/-- `MownStr::extract_box` (lib.rs lines 106-118): return the box
`(addr, real_len)` and the mutated handle whose `xlen` is zeroed
("turn to borrowed, to avoid double-free"). -/
def MownStr.extract_box (m : MownStr) : (Nat × Nat) × MownStr :=
  ((m.addr, m.real_len), ⟨m.addr, 0⟩)

/-- `impl Drop for MownStr` (lib.rs lines 121-129): if owned, extract the
box and release it; otherwise do nothing.  Returns the post-state of the
handle's fields together with the new heap. -/
def MownStr.drop (m : MownStr) (h : Heap) : MownStr × Heap :=
  if m.is_owned then
    (m.extract_box.2, h.dealloc m.extract_box.1.1 m.extract_box.1.2)
  else (m, h)

/-- `impl Clone for MownStr` (lib.rs lines 131-143): if owned, copy the
dereferenced bytes into a fresh exactly-sized buffer and build an owned
handle from it (`Box::<str>::from(&**self).into()`); otherwise copy the two
fields verbatim. -/
def MownStr.clone (m : MownStr) (h : Heap) : MownStr × Heap :=
  if m.is_owned then
    (MownStr.fromBox (h.alloc (MownStr.deref h.mem m)).1 (MownStr.deref h.mem m).length,
     (h.alloc (MownStr.deref h.mem m)).2)
  else (m, h)

/-- Lexicographic byte comparison, i.e. `str::cmp` (UTF-8 makes Rust's
char-wise comparison coincide with byte-wise comparison). -/
def strCmp : List Nat → List Nat → Ordering
  | [], [] => .eq
  | [], _ :: _ => .lt
  | _ :: _, [] => .gt
  | x :: xs, y :: ys =>
    match compare x y with
    | .eq => strCmp xs ys
    | o => o

/-- `impl PartialEq for MownStr` (lib.rs lines 222-226): `**self == **other`. -/
def MownStr.beq (mem : Mem) (m1 m2 : MownStr) : Bool :=
  MownStr.deref mem m1 == MownStr.deref mem m2

/-- `impl Ord for MownStr` (lib.rs lines 236-240): compare the dereferenced
strings. -/
def MownStr.cmp (mem : Mem) (m1 m2 : MownStr) : Ordering :=
  strCmp (MownStr.deref mem m1) (MownStr.deref mem m2)

/-- `impl PartialEq<&str> for MownStr` (lib.rs lines 244-248):
`&**self == *other`. -/
def MownStr.beqStr (mem : Mem) (m : MownStr) (s : List Nat) : Bool :=
  MownStr.deref mem m == s

/-- `impl PartialEq<MownStr> for &str` (lib.rs lines 256-260):
`self == &&**other`. -/
def strBeqMown (mem : Mem) (s : List Nat) (m : MownStr) : Bool :=
  s == MownStr.deref mem m

/-- `impl PartialOrd<&str> for MownStr` (lib.rs lines 250-254). -/
def MownStr.cmpStr (mem : Mem) (m : MownStr) (s : List Nat) : Ordering :=
  strCmp (MownStr.deref mem m) s

/-- `impl PartialOrd<MownStr> for &str` (lib.rs lines 262-266). -/
def strCmpMown (mem : Mem) (s : List Nat) (m : MownStr) : Ordering :=
  strCmp s (MownStr.deref mem m)

/-- `impl Hash for MownStr` (lib.rs lines 216-220): delegate to the
dereferenced string's hash; the hasher is modelled as an arbitrary function
`H` from byte strings to hash values. -/
def MownStr.hashWith (H : List Nat → Nat) (mem : Mem) (m : MownStr) : Nat :=
  H (MownStr.deref mem m)

/-- `MownStr::from_ref` with its `debug_assert!(other.len() <= LEN_MASK)`
(lib.rs line 50): in a debug build an over-long input is an immediate,
non-continuable failure, modelled as `none`. -/
def MownStr.from_ref_checked (a len : Nat) : Option MownStr :=
  if len ≤ LEN_MASK then some (MownStr.from_ref a len) else none

/-- `From<Box<str>>` with its `debug_assert!(len <= LEN_MASK)`
(lib.rs line 156), modelled as `none` on an over-long input. -/
def MownStr.fromBox_checked (a len : Nat) : Option MownStr :=
  if len ≤ LEN_MASK then some (MownStr.fromBox a len) else none

/-! ### Arithmetic facts about the tagged-length encoding -/

theorem LEN_MASK_eq : LEN_MASK = 2 ^ 63 - 1 := by decide

theorem OWN_FLAG_eq : OWN_FLAG = 2 ^ 63 := by decide

theorem and_len_mask (x : Nat) : x &&& LEN_MASK = x % 2 ^ 63 := by
  rw [LEN_MASK_eq]
  exact Nat.and_pow_two_sub_one_eq_mod x 63

theorem and_len_mask_of_le {x : Nat} (h : x ≤ LEN_MASK) : x &&& LEN_MASK = x := by
  rw [and_len_mask]
  exact Nat.mod_eq_of_lt (by rw [LEN_MASK_eq] at h; omega)

theorem and_own_flag (x : Nat) : x &&& OWN_FLAG = (x.testBit 63).toNat * 2 ^ 63 := by
  rw [OWN_FLAG_eq]
  exact Nat.and_two_pow x 63

theorem and_own_flag_of_le {x : Nat} (h : x ≤ LEN_MASK) : x &&& OWN_FLAG = 0 := by
  have hx : x < 2 ^ 63 := by rw [LEN_MASK_eq] at h; omega
  rw [and_own_flag, Nat.testBit_lt_two_pow hx]
  simp

theorem and_own_flag_cases (x : Nat) : x &&& OWN_FLAG = 0 ∨ x &&& OWN_FLAG = OWN_FLAG := by
  rw [and_own_flag, OWN_FLAG_eq]
  cases x.testBit 63 <;> simp

theorem lor_own_and_mask {len : Nat} (h : len ≤ LEN_MASK) :
    (len ||| OWN_FLAG) &&& LEN_MASK = len := by
  rw [Nat.and_distrib_right]
  have h1 : OWN_FLAG &&& LEN_MASK = 0 := by
    rw [and_len_mask, OWN_FLAG_eq]
    simp
  rw [h1, and_len_mask_of_le h, Nat.or_zero]

theorem lor_own_and_own (len : Nat) :
    (len ||| OWN_FLAG) &&& OWN_FLAG = OWN_FLAG := by
  rw [Nat.and_distrib_right, Nat.and_self]
  rcases and_own_flag_cases len with h | h <;> rw [h] <;> simp

/-! ### Derived facts about the handle encoding -/

theorem real_len_le (m : MownStr) : m.real_len ≤ LEN_MASK := by
  unfold MownStr.real_len
  rw [and_len_mask, LEN_MASK_eq]
  omega

theorem from_ref_real_len {len : Nat} (h : len ≤ LEN_MASK) (a : Nat) :
    (MownStr.from_ref a len).real_len = len := and_len_mask_of_le h

theorem fromBox_real_len {len : Nat} (h : len ≤ LEN_MASK) (a : Nat) :
    (MownStr.fromBox a len).real_len = len := lor_own_and_mask h

theorem from_ref_is_borrowed {len : Nat} (h : len ≤ LEN_MASK) (a : Nat) :
    (MownStr.from_ref a len).is_borrowed = true := by
  simp [MownStr.is_borrowed, MownStr.from_ref, and_own_flag_of_le h]

theorem fromBox_is_owned (a len : Nat) : (MownStr.fromBox a len).is_owned = true := by
  simp [MownStr.is_owned, MownStr.fromBox, lor_own_and_own]

theorem is_borrowed_eq_not_is_owned (m : MownStr) : m.is_borrowed = !m.is_owned := by
  unfold MownStr.is_borrowed MownStr.is_owned
  have hF : OWN_FLAG ≠ 0 := by rw [OWN_FLAG_eq]; positivity
  rcases and_own_flag_cases m.xlen with h | h <;> rw [h] <;> simp [hF, Ne.symm hF]

/-! ### Facts about memory reads and writes -/

theorem readBytes_length (mem : Mem) (a len : Nat) :
    (readBytes mem a len).length = len := by
  simp [readBytes]

theorem readBytes_writeBytes (mem : Mem) (a : Nat) (s : List Nat) :
    readBytes (writeBytes mem a s) a s.length = s := by
  apply List.ext_getElem
  · simp [readBytes]
  · intro i h1 h2
    simp only [readBytes, writeBytes, List.getElem_map, List.getElem_range]
    rw [if_pos ⟨Nat.le_add_right a i, by omega⟩, Nat.add_sub_cancel_left]
    exact List.getD_eq_getElem s 0 h2

theorem readBytes_writeBytes_of_le (mem : Mem) (a b len : Nat) (s : List Nat)
    (h : b + len ≤ a) : readBytes (writeBytes mem a s) b len = readBytes mem b len := by
  simp only [readBytes, writeBytes]
  apply List.map_congr_left
  intro i hi
  have hilt : i < len := List.mem_range.mp hi
  exact if_neg (by omega)

theorem le_foldr_max {l : List (Nat × Nat)} {p : Nat × Nat} (hp : p ∈ l) :
    p.1 + p.2 ≤ (l.map fun q => q.1 + q.2).foldr max 0 := by
  induction l with
  | nil => cases hp
  | cons q l ih =>
    simp only [List.map_cons, List.foldr_cons]
    rcases List.mem_cons.mp hp with h | h
    · subst h
      exact Nat.le_max_left _ _
    · exact le_trans (ih h) (Nat.le_max_right _ _)

theorem mem_live_lt_freshAddr {h : Heap} {p : Nat × Nat} (hp : p ∈ h.live) :
    p.1 + p.2 < h.freshAddr := by
  unfold Heap.freshAddr
  have := le_foldr_max hp
  omega

/-! ### Claims -/

/-- Claim C1: for every string `s` with `len(s) ≤ MAX_LEN` (`= LEN_MASK =
usize::MAX/2`), constructing a handle from a borrowed reference to `s`
(`MownStr::from_ref`, also `From<&str>` which delegates to it) and
dereferencing yields exactly the bytes of `s`; constructing from an owned
copy of `s` — a `Box<str>` holding `s` at address `b` (`From<Box<str>>`),
or a `String` holding `s` (`From<String>`, which allocates an exact-size
buffer) — and dereferencing also yields exactly the bytes of `s`. -/
theorem C1_roundtrip_deref (mem : Mem) (hp : Heap) (a b : Nat) (s : List Nat)
    (hlen : s.length ≤ LEN_MASK)
    (hs : readBytes mem a s.length = s) (hb : readBytes mem b s.length = s) :
    MownStr.deref mem (MownStr.from_ref a s.length) = s ∧
    MownStr.deref mem (MownStr.fromBox b s.length) = s ∧
    MownStr.deref (mownFromString hp s).2.mem (mownFromString hp s).1 = s := by
  refine ⟨?_, ?_, ?_⟩
  · show readBytes mem a (MownStr.from_ref a s.length).real_len = s
    rw [from_ref_real_len hlen]
    exact hs
  · show readBytes mem b (MownStr.fromBox b s.length).real_len = s
    rw [fromBox_real_len hlen]
    exact hb
  · show readBytes (writeBytes hp.mem hp.freshAddr s) hp.freshAddr
      (MownStr.fromBox hp.freshAddr s.length).real_len = s
    rw [fromBox_real_len hlen]
    exact readBytes_writeBytes hp.mem hp.freshAddr s

/-- Witness for C1 at `s = [5, 6]` stored at address 5 of the memory
`fun x => x`. -/
theorem C1_roundtrip_deref_witness :
    MownStr.deref (fun x => x) (MownStr.from_ref 5 2) = [5, 6] ∧
    MownStr.deref (fun x => x) (MownStr.fromBox 5 2) = [5, 6] ∧
    MownStr.deref (mownFromString ⟨fun x => x, []⟩ [5, 6]).2.mem
      (mownFromString ⟨fun x => x, []⟩ [5, 6]).1 = [5, 6] :=
  C1_roundtrip_deref (fun x => x) ⟨fun x => x, []⟩ 5 5 [5, 6]
    (by decide) (by decide) (by decide)

/-- Claim C2: equality, ordering and hashing of handles agree with
comparing/hashing the underlying strings directly, for handles built from
`a` and `b` by any construction (the hypotheses only fix what the handles
dereference to, leaving address and ownership tag arbitrary, so every
owned/borrowed combination is covered and the outcome never depends on the
ownership bit); this includes handle-to-plain-string equality and ordering
in both operand orders, and hashing under an arbitrary hasher `H`. -/
theorem C2_cmp_hash_consistency (mem : Mem) (H : List Nat → Nat) (m1 m2 : MownStr)
    (a b : List Nat) (h1 : MownStr.deref mem m1 = a) (h2 : MownStr.deref mem m2 = b) :
    MownStr.beq mem m1 m2 = (a == b) ∧
    MownStr.cmp mem m1 m2 = strCmp a b ∧
    MownStr.beqStr mem m1 b = (a == b) ∧
    strBeqMown mem a m2 = (a == b) ∧
    MownStr.cmpStr mem m1 b = strCmp a b ∧
    strCmpMown mem a m2 = strCmp a b ∧
    MownStr.hashWith H mem m1 = H a := by
  subst h1
  subst h2
  exact ⟨rfl, rfl, rfl, rfl, rfl, rfl, rfl⟩

/-- Witness for C2: a borrowed handle on `[5, 6]` against an owned handle
on `[7, 8]`, with the hasher `List.length`. -/
theorem C2_cmp_hash_consistency_witness :
    MownStr.beq (fun x => x) (MownStr.from_ref 5 2) (MownStr.fromBox 7 2) = ([5, 6] == [7, 8]) ∧
    MownStr.cmp (fun x => x) (MownStr.from_ref 5 2) (MownStr.fromBox 7 2) = strCmp [5, 6] [7, 8] ∧
    MownStr.beqStr (fun x => x) (MownStr.from_ref 5 2) [7, 8] = ([5, 6] == [7, 8]) ∧
    strBeqMown (fun x => x) [5, 6] (MownStr.fromBox 7 2) = ([5, 6] == [7, 8]) ∧
    MownStr.cmpStr (fun x => x) (MownStr.from_ref 5 2) [7, 8] = strCmp [5, 6] [7, 8] ∧
    strCmpMown (fun x => x) [5, 6] (MownStr.fromBox 7 2) = strCmp [5, 6] [7, 8] ∧
    MownStr.hashWith List.length (fun x => x) (MownStr.from_ref 5 2) = List.length [5, 6] :=
  C2_cmp_hash_consistency (fun x => x) List.length
    (MownStr.from_ref 5 2) (MownStr.fromBox 7 2) [5, 6] [7, 8] (by decide) (by decide)

/-- Claim C3: `from_ref` (and hence `From<&str>`, and `From<Cow::Borrowed>`
which dispatches to it) yields a handle with `is_borrowed() = true` and
`is_owned() = false`; `From<Box<str>>`, `From<String>` and
`From<Cow::Owned>` yield handles with `is_owned() = true`. -/
theorem C3_ownership_flags (hp : Heap) (a len : Nat) (s : List Nat)
    (hlen : len ≤ LEN_MASK) :
    (MownStr.from_ref a len).is_borrowed = true ∧
    (MownStr.from_ref a len).is_owned = false ∧
    (MownStr.fromBox a len).is_owned = true ∧
    (mownFromString hp s).1.is_owned = true ∧
    (mownFromCow hp (Cow.owned s)).1.is_owned = true ∧
    (mownFromCow hp (Cow.borrowed a len)).1.is_borrowed = true := by
  have hb := from_ref_is_borrowed hlen a
  have hdi := is_borrowed_eq_not_is_owned (MownStr.from_ref a len)
  refine ⟨hb, ?_, fromBox_is_owned _ _, fromBox_is_owned _ _, fromBox_is_owned _ _, hb⟩
  rw [hb] at hdi
  cases ho : (MownStr.from_ref a len).is_owned
  · rfl
  · rw [ho] at hdi
    cases hdi

/-- Witness for C3 at address 1, length 3, owned content `[9]`. -/
theorem is_borrowed_zero_xlen (a : Nat) : (MownStr.mk a 0).is_borrowed = true := by
  simp [MownStr.is_borrowed]

theorem is_owned_zero_xlen (a : Nat) : (MownStr.mk a 0).is_owned = false := by
  have hF : OWN_FLAG ≠ 0 := by rw [OWN_FLAG_eq]; positivity
  simp [MownStr.is_owned, Ne.symm hF]

theorem is_owned_eq_false_of_is_borrowed {m : MownStr} (hb : m.is_borrowed = true) :
    m.is_owned = false := by
  have hd := is_borrowed_eq_not_is_owned m
  rw [hb] at hd
  cases ho : m.is_owned
  · rfl
  · rw [ho] at hd
    simp at hd

theorem C3_ownership_flags_witness :
    (MownStr.from_ref 1 3).is_borrowed = true ∧
    (MownStr.from_ref 1 3).is_owned = false ∧
    (MownStr.fromBox 1 3).is_owned = true ∧
    (mownFromString ⟨fun _ => 0, []⟩ [9]).1.is_owned = true ∧
    (mownFromCow ⟨fun _ => 0, []⟩ (Cow.owned [9])).1.is_owned = true ∧
    (mownFromCow ⟨fun _ => 0, []⟩ (Cow.borrowed 1 3)).1.is_borrowed = true :=
  C3_ownership_flags ⟨fun _ => 0, []⟩ 1 3 [9] (by decide)

/-- Claim C4: dropping an owned handle zeroes its `xlen` (so `is_borrowed()`
then holds, exactly what `extract_box` guarantees) and releases the heap
allocation `(addr, real_len)` exactly once (`Heap.dealloc` removes one
entry from the live list); invoking the release path a second time on the
resulting handle is a no-op; and dropping a borrowed handle changes
nothing — it never frees memory it does not own. -/
theorem C4_drop_semantics (m : MownStr) (h : Heap) :
    (m.is_owned = true →
      (m.drop h).1 = MownStr.mk m.addr 0 ∧
      (m.drop h).2 = h.dealloc m.addr m.real_len ∧
      (m.drop h).1.is_borrowed = true ∧
      MownStr.drop (m.drop h).1 (m.drop h).2 = m.drop h) ∧
    (m.is_borrowed = true → m.drop h = (m, h)) := by
  constructor
  · intro ho
    have h1 : (m.drop h).1 = MownStr.mk m.addr 0 := by
      simp [MownStr.drop, MownStr.extract_box, ho]
    have h2 : (m.drop h).2 = h.dealloc m.addr m.real_len := by
      simp [MownStr.drop, MownStr.extract_box, ho]
    refine ⟨h1, h2, ?_, ?_⟩
    · rw [h1]
      exact is_borrowed_zero_xlen m.addr
    · have hnoop : MownStr.drop (MownStr.mk m.addr 0) (m.drop h).2 =
          (MownStr.mk m.addr 0, (m.drop h).2) := by
        simp [MownStr.drop, is_owned_zero_xlen]
      rw [h1, hnoop, ← h1]
  · intro hb
    simp [MownStr.drop, is_owned_eq_false_of_is_borrowed hb]

/-- Witness for C4: an owned handle over the live allocation `(1, 3)`, and
a borrowed handle dropped against the same heap. -/
theorem C4_drop_semantics_witness :
    (((MownStr.fromBox 1 3).drop ⟨fun x => x, [(1, 3)]⟩).1 = MownStr.mk 1 0 ∧
     ((MownStr.fromBox 1 3).drop ⟨fun x => x, [(1, 3)]⟩).2 =
       Heap.dealloc ⟨fun x => x, [(1, 3)]⟩ 1 (MownStr.fromBox 1 3).real_len ∧
     ((MownStr.fromBox 1 3).drop ⟨fun x => x, [(1, 3)]⟩).1.is_borrowed = true ∧
     MownStr.drop ((MownStr.fromBox 1 3).drop ⟨fun x => x, [(1, 3)]⟩).1
       ((MownStr.fromBox 1 3).drop ⟨fun x => x, [(1, 3)]⟩).2 =
       (MownStr.fromBox 1 3).drop ⟨fun x => x, [(1, 3)]⟩) ∧
    (MownStr.from_ref 1 3).drop ⟨fun x => x, [(1, 3)]⟩ =
      (MownStr.from_ref 1 3, ⟨fun x => x, [(1, 3)]⟩) :=
  ⟨(C4_drop_semantics (MownStr.fromBox 1 3) ⟨fun x => x, [(1, 3)]⟩).1 (by decide),
   (C4_drop_semantics (MownStr.from_ref 1 3) ⟨fun x => x, [(1, 3)]⟩).2 (by decide)⟩

/-- Claim C5: cloning a borrowed handle is a trivial copy of the two fields
(same address, same tagged length, heap untouched — it aliases the same
bytes and is still borrowed); cloning an owned handle whose allocation is
live yields an owned handle backed by a freshly allocated exactly-sized
buffer at a distinct address, whose bytes equal the original's, and the
original's bytes are unchanged (no aliasing between the two owned copies). -/
theorem C5_clone_semantics (m : MownStr) (h : Heap)
    (hlive : (m.addr, m.real_len) ∈ h.live) :
    (m.is_borrowed = true → m.clone h = (m, h)) ∧
    (m.is_owned = true →
      (m.clone h).1.is_owned = true ∧
      (m.clone h).1.addr = h.freshAddr ∧
      (m.clone h).1.addr ≠ m.addr ∧
      (m.clone h).2.live = (h.freshAddr, m.real_len) :: h.live ∧
      MownStr.deref (m.clone h).2.mem (m.clone h).1 = MownStr.deref h.mem m ∧
      MownStr.deref (m.clone h).2.mem m = MownStr.deref h.mem m) := by
  have hfresh : m.addr + m.real_len < h.freshAddr := mem_live_lt_freshAddr hlive
  constructor
  · intro hb
    simp [MownStr.clone, is_owned_eq_false_of_is_borrowed hb]
  · intro ho
    have hslen : (MownStr.deref h.mem m).length = m.real_len :=
      readBytes_length h.mem m.addr m.real_len
    simp only [MownStr.clone, ho, if_true]
    refine ⟨fromBox_is_owned _ _, rfl, ?_, ?_, ?_, ?_⟩
    · show h.freshAddr ≠ m.addr
      omega
    · show (h.freshAddr, (MownStr.deref h.mem m).length) :: h.live =
        (h.freshAddr, m.real_len) :: h.live
      rw [hslen]
    · show readBytes (writeBytes h.mem h.freshAddr (MownStr.deref h.mem m)) h.freshAddr
        (MownStr.fromBox h.freshAddr (MownStr.deref h.mem m).length).real_len =
        MownStr.deref h.mem m
      rw [fromBox_real_len (by rw [hslen]; exact real_len_le m)]
      exact readBytes_writeBytes _ _ _
    · show readBytes (writeBytes h.mem h.freshAddr (MownStr.deref h.mem m)) m.addr
        m.real_len = MownStr.deref h.mem m
      exact readBytes_writeBytes_of_le _ _ _ _ _ (by omega)

/-- Witness for C5: a borrowed and an owned handle over the live allocation
`(1, 2)` of a heap whose memory is `fun x => x`. -/
theorem C5_clone_semantics_witness :
    (MownStr.from_ref 1 2).clone ⟨fun x => x, [(1, 2)]⟩ =
      (MownStr.from_ref 1 2, ⟨fun x => x, [(1, 2)]⟩) ∧
    (((MownStr.fromBox 1 2).clone ⟨fun x => x, [(1, 2)]⟩).1.is_owned = true ∧
     ((MownStr.fromBox 1 2).clone ⟨fun x => x, [(1, 2)]⟩).1.addr =
       Heap.freshAddr ⟨fun x => x, [(1, 2)]⟩ ∧
     ((MownStr.fromBox 1 2).clone ⟨fun x => x, [(1, 2)]⟩).1.addr ≠ (MownStr.fromBox 1 2).addr ∧
     ((MownStr.fromBox 1 2).clone ⟨fun x => x, [(1, 2)]⟩).2.live =
       (Heap.freshAddr ⟨fun x => x, [(1, 2)]⟩, (MownStr.fromBox 1 2).real_len) :: [(1, 2)] ∧
     MownStr.deref ((MownStr.fromBox 1 2).clone ⟨fun x => x, [(1, 2)]⟩).2.mem
       ((MownStr.fromBox 1 2).clone ⟨fun x => x, [(1, 2)]⟩).1 =
       MownStr.deref (fun x => x) (MownStr.fromBox 1 2) ∧
     MownStr.deref ((MownStr.fromBox 1 2).clone ⟨fun x => x, [(1, 2)]⟩).2.mem
       (MownStr.fromBox 1 2) = MownStr.deref (fun x => x) (MownStr.fromBox 1 2)) :=
  ⟨(C5_clone_semantics (MownStr.from_ref 1 2) ⟨fun x => x, [(1, 2)]⟩ (by decide)).1 (by decide),
   (C5_clone_semantics (MownStr.fromBox 1 2) ⟨fun x => x, [(1, 2)]⟩ (by decide)).2 (by decide)⟩

/-- Claim C6: for every handle, `borrowed()` returns a handle with the same
address and the same untagged length but the ownership tag cleared, so it
satisfies `is_borrowed()`, dereferences to the same bytes, and dropping it
leaves both its fields and the heap unchanged (it never releases the
original's buffer). -/
theorem C6_borrowed_downgrade (m : MownStr) (mem : Mem) (h : Heap) :
    m.borrowed.addr = m.addr ∧
    m.borrowed.real_len = m.real_len ∧
    m.borrowed.is_borrowed = true ∧
    MownStr.deref mem m.borrowed = MownStr.deref mem m ∧
    MownStr.drop m.borrowed h = (m.borrowed, h) := by
  have hrl : m.borrowed.real_len = m.real_len := by
    show (m.xlen &&& LEN_MASK) &&& LEN_MASK = m.xlen &&& LEN_MASK
    rw [Nat.and_assoc, Nat.and_self]
  have hb : m.borrowed.is_borrowed = true := by
    have h0 : (m.xlen &&& LEN_MASK) &&& OWN_FLAG = 0 := and_own_flag_of_le (real_len_le m)
    simp [MownStr.is_borrowed, MownStr.borrowed, h0]
  refine ⟨rfl, hrl, hb, ?_, ?_⟩
  · show readBytes mem m.addr m.borrowed.real_len = readBytes mem m.addr m.real_len
    rw [hrl]
  · simp [MownStr.drop, is_owned_eq_false_of_is_borrowed hb]

/-- Claim C7: length-overflow is the single failure mode.  `MAX_LEN`
(`LEN_MASK`) equals `usize::MAX / 2`; the debug assertions of `from_ref`
(lib.rs line 50) and `From<Box<str>>` (line 156) accept an input exactly
when its length is at most `MAX_LEN` (and then build the same handle the
unchecked path builds) and fail exactly when the length exceeds `MAX_LEN`.
Every other operation of the embedding (`deref`, `is_borrowed`, `is_owned`,
`borrowed`, `beq`, `cmp`, `hashWith`, the conversions) is a total Lean
function, so it cannot fail on any validly-constructed handle; as a sample,
`deref` always returns a string of length `real_len`. -/
theorem C7_length_overflow_only_failure (a len : Nat) :
    LEN_MASK = usizeMax / 2 ∧
    (len ≤ LEN_MASK →
      MownStr.from_ref_checked a len = some (MownStr.from_ref a len) ∧
      MownStr.fromBox_checked a len = some (MownStr.fromBox a len)) ∧
    (LEN_MASK < len →
      MownStr.from_ref_checked a len = none ∧
      MownStr.fromBox_checked a len = none) ∧
    (∀ (mem : Mem) (m : MownStr), (MownStr.deref mem m).length = m.real_len) := by
  refine ⟨by decide, ?_, ?_, fun mem m => readBytes_length mem m.addr m.real_len⟩
  · intro hle
    simp [MownStr.from_ref_checked, MownStr.fromBox_checked, hle]
  · intro hgt
    simp [MownStr.from_ref_checked, MownStr.fromBox_checked, Nat.not_le.mpr hgt]

/-- Witness for C7: length 3 is accepted, length `2^63 = MAX_LEN + 1` is
rejected, by both checked constructors. -/
theorem C7_length_overflow_only_failure_witness :
    MownStr.from_ref_checked 1 3 = some (MownStr.from_ref 1 3) ∧
    MownStr.fromBox_checked 1 3 = some (MownStr.fromBox 1 3) ∧
    MownStr.from_ref_checked 1 (2 ^ 63) = none ∧
    MownStr.fromBox_checked 1 (2 ^ 63) = none :=
  ⟨((C7_length_overflow_only_failure 1 3).2.1 (by decide)).1,
   ((C7_length_overflow_only_failure 1 3).2.1 (by decide)).2,
   ((C7_length_overflow_only_failure 1 (2 ^ 63)).2.2.1 (by decide)).1,
   ((C7_length_overflow_only_failure 1 (2 ^ 63)).2.2.1 (by decide)).2⟩

/-- Claim C8: `From<Cow<str>>` dispatches on the variant (`Cow::Borrowed`
goes through the borrowed constructor with the heap untouched, `Cow::Owned`
through the owned `String` constructor), and for any `Cow` value `c` whose
content fits `MAX_LEN`, converting the resulting handle back into a `Cow`
yields exactly `c`: same variant, same content. -/
theorem C8_cow_roundtrip (h : Heap) (c : Cow) (a len : Nat) (s : List Nat)
    (hlen : (cowContent h.mem c).length ≤ LEN_MASK) :
    mownFromCow h (Cow.borrowed a len) = (MownStr.from_ref a len, h) ∧
    mownFromCow h (Cow.owned s) = mownFromString h s ∧
    mownIntoCow (mownFromCow h c).2.mem (mownFromCow h c).1 = c := by
  refine ⟨rfl, rfl, ?_⟩
  cases c with
  | borrowed b blen =>
    have hlen' : blen ≤ LEN_MASK := by
      have hr := readBytes_length h.mem b blen
      simp only [cowContent] at hlen
      rwa [hr] at hlen
    have ho := is_owned_eq_false_of_is_borrowed (from_ref_is_borrowed hlen' b)
    simp only [MownStr.from_ref] at ho
    simp [mownFromCow, mownIntoCow, ho, MownStr.from_ref]
  | owned t =>
    have hlen' : t.length ≤ LEN_MASK := hlen
    have hder : MownStr.deref (mownFromString h t).2.mem (mownFromString h t).1 = t := by
      show readBytes (writeBytes h.mem h.freshAddr t) h.freshAddr
        (MownStr.fromBox h.freshAddr t.length).real_len = t
      rw [fromBox_real_len hlen']
      exact readBytes_writeBytes h.mem h.freshAddr t
    show mownIntoCow (mownFromString h t).2.mem (mownFromString h t).1 = Cow.owned t
    unfold mownIntoCow
    rw [if_pos, hder]
    show (mownFromString h t).1.is_owned = true
    exact fromBox_is_owned _ _

/-- Witness for C8: the heap `⟨fun x => x, []⟩` with a borrowed `Cow` over
`(1, 2)` and an owned `Cow` holding `[7]`. -/
theorem C8_cow_roundtrip_witness :
    mownFromCow ⟨fun x => x, []⟩ (Cow.borrowed 1 2) =
      (MownStr.from_ref 1 2, ⟨fun x => x, []⟩) ∧
    mownIntoCow (mownFromCow ⟨fun x => x, []⟩ (Cow.borrowed 1 2)).2.mem
      (mownFromCow ⟨fun x => x, []⟩ (Cow.borrowed 1 2)).1 = Cow.borrowed 1 2 ∧
    mownFromCow ⟨fun x => x, []⟩ (Cow.owned [7]) = mownFromString ⟨fun x => x, []⟩ [7] ∧
    mownIntoCow (mownFromCow ⟨fun x => x, []⟩ (Cow.owned [7])).2.mem
      (mownFromCow ⟨fun x => x, []⟩ (Cow.owned [7])).1 = Cow.owned [7] :=
  ⟨(C8_cow_roundtrip ⟨fun x => x, []⟩ (Cow.borrowed 1 2) 1 2 [7] (by decide)).1,
   (C8_cow_roundtrip ⟨fun x => x, []⟩ (Cow.borrowed 1 2) 1 2 [7] (by decide)).2.2,
   (C8_cow_roundtrip ⟨fun x => x, []⟩ (Cow.owned [7]) 1 2 [7] (by decide)).2.1,
   (C8_cow_roundtrip ⟨fun x => x, []⟩ (Cow.owned [7]) 1 2 [7] (by decide)).2.2⟩

/-- Claim C9: for every handle, `is_borrowed()` is exactly the negation of
`is_owned()` — exactly one of the two holds and there is no third state.
Since this is proved for every value of the two physical fields, it is
automatically preserved by every operation that yields a handle
(`from_ref`, `fromBox`, `clone`, `borrowed`, `extract_box`, ...). -/
theorem C9_ownership_dichotomy (m : MownStr) :
    m.is_borrowed = !m.is_owned ∧ m.is_borrowed ≠ m.is_owned := by
  have hd := is_borrowed_eq_not_is_owned m
  refine ⟨hd, ?_⟩
  rw [hd]
  cases m.is_owned <;> decide

/-- Claim C10: construction from the empty string succeeds in every
variant: `from_ref` of an empty string yields a borrowed handle of length 0
dereferencing to the empty string; `From<Box<str>>` and `From<String>` of
an empty buffer yield owned handles of length 0 dereferencing to the empty
string; and dropping the owned empty handle releases its (zero-length)
allocation, restoring the heap's live list. -/
theorem C10_empty_string (mem : Mem) (h : Heap) (a b : Nat) :
    (MownStr.from_ref a 0).is_borrowed = true ∧
    (MownStr.from_ref a 0).real_len = 0 ∧
    MownStr.deref mem (MownStr.from_ref a 0) = [] ∧
    (MownStr.fromBox b 0).is_owned = true ∧
    MownStr.deref mem (MownStr.fromBox b 0) = [] ∧
    (mownFromString h []).1.is_owned = true ∧
    (mownFromString h []).1.real_len = 0 ∧
    MownStr.deref (mownFromString h []).2.mem (mownFromString h []).1 = [] ∧
    ((mownFromString h []).1.drop (mownFromString h []).2).2.live = h.live := by
  have hlen0 : (0 : Nat) ≤ LEN_MASK := Nat.zero_le _
  refine ⟨from_ref_is_borrowed hlen0 a, from_ref_real_len hlen0 a, ?_,
    fromBox_is_owned b 0, ?_, fromBox_is_owned _ _, ?_, ?_, ?_⟩
  · show readBytes mem a (MownStr.from_ref a 0).real_len = []
    rw [from_ref_real_len hlen0]
    rfl
  · show readBytes mem b (MownStr.fromBox b 0).real_len = []
    rw [fromBox_real_len hlen0]
    rfl
  · exact fromBox_real_len hlen0 _
  · show readBytes (writeBytes h.mem h.freshAddr []) h.freshAddr
      (MownStr.fromBox h.freshAddr 0).real_len = []
    rw [fromBox_real_len hlen0]
    rfl
  · show ((MownStr.fromBox h.freshAddr 0).drop
      ⟨writeBytes h.mem h.freshAddr [], (h.freshAddr, 0) :: h.live⟩).2.live = h.live
    simp only [MownStr.drop, fromBox_is_owned, if_true, MownStr.extract_box, Heap.dealloc]
    rw [fromBox_real_len hlen0]
    exact List.erase_cons_head _ _

end Mown
